import Mathlib

/-!
# SMP bring-up of secondary cores on Allwinner SoCs (`arch/arm/mach-sunxi/platsmp.c`)

A shallow embedding of the three bring-up operations and the two discovery
operations of `platsmp.c`, together with the properties of their register-level
protocol.

Modelling conventions.

* The code is built for 32-bit ARM: `unsigned int`, `u32`, `unsigned long` and
  `void __iomem *` are all 32 bits wide.  Machine integers are natural numbers
  and every C operation that can leave the 32-bit range is followed by an
  explicit reduction modulo `2 ^ 32` (`u32`).
* The register space is a memory `Nat → Nat` from addresses to values: a read
  returns the last value written.  Every access is also recorded in an event
  trace, with lock operations and delays.
* The two region handles are the file-level globals `prcm_membase` and
  `cpucfg_membase`; the null pointer is `0`.
* Kernel services that are not part of this file (device-tree lookup, register
  window mapping, the physical address of `secondary_startup`) are parameters.
-/

namespace Sunxi

/-! ## Machine words -/

/-- Reduction of a natural number to an unsigned 32-bit word. -/
def u32 (x : Nat) : Nat := x % 2 ^ 32

/-- Modelled from the spec: the kernel macro `BIT(nr)`, "the core's bit", is `1UL << nr`
and is declared in a kernel header outside this file.  For `nr ≥ 32` the C shift is
undefined; the model takes the truncated value `0` there, and every statement that
depends on the value of `BIT` is made for `nr < 32`. -/
def BIT (nr : Nat) : Nat := if nr < 32 then 1 <<< nr else 0

/-- The C operator `~` on a 32-bit word. -/
def not32 (x : Nat) : Nat := (2 ^ 32 - 1) ^^^ u32 x

/-- Modelled from the spec: the errno constant `EFAULT` is declared in a kernel header
outside this file; the spec only asks for a negative error code, the kernel value is 14. -/
def EFAULT : Int := 14

/-! ## Register offsets (lines 22 to 37) -/

def CPUCFG_CPU_PWR_CLAMP_STATUS_REG (cpu : Nat) : Nat := u32 (u32 (cpu * 0x40) + 0x64)
def CPUCFG_CPU_RST_CTRL_REG (cpu : Nat) : Nat := u32 (u32 (cpu + 1) * 0x40)
def CPUCFG_CPU_CTRL_REG (cpu : Nat) : Nat := u32 (u32 (u32 (cpu + 1) * 0x40) + 0x04)
def CPUCFG_CPU_STATUS_REG (cpu : Nat) : Nat := u32 (u32 (u32 (cpu + 1) * 0x40) + 0x08)
def CPUCFG_GEN_CTRL_REG : Nat := 0x184
def CPUCFG_PRIVATE0_REG : Nat := 0x1a4
def CPUCFG_PRIVATE1_REG : Nat := 0x1a8
def CPUCFG_DBG_CTL0_REG : Nat := 0x1e0
def CPUCFG_DBG_CTL1_REG : Nat := 0x1e4

def PRCM_CPU_PWROFF_REG : Nat := 0x100
def PRCM_CPU_PWR_CLAMP_REG (cpu : Nat) : Nat := u32 (u32 (cpu * 4) + 0x140)

def SUN8I_R528_C0_CPUX_CFG : Nat := 0x09010000
def SUN8I_R528_C0_RST_CTRL : Nat := 0x00
def SUN8I_R528_C0_CTRL_REG0 : Nat := 0x0010

/-- Pointer arithmetic `base + off` on a 32-bit `void __iomem *`. -/
def ptr (base off : Nat) : Nat := u32 (base + off)

/-! ## Register space, lock and delays -/

/-- One observable step of a call. -/
inductive Event where
  | lock : Event
  | unlock : Event
  | read (addr val : Nat) : Event
  | write (addr val : Nat) : Event
  | delay (ms : Nat) : Event
  deriving DecidableEq, Repr

/-- The register space as a memory, and the events recorded so far. -/
structure Machine where
  mem : Nat → Nat
  trace : List Event

/-- The 32-bit value a read of the register at address `a` returns. -/
def Machine.reg (s : Machine) (a : Nat) : Nat := u32 (s.mem a)

/-- Modelled from the spec: `writel(v, a)` stores the 32-bit value `v` in the register
at address `a` (kernel accessor, declared outside this file). -/
def writel (v a : Nat) (s : Machine) : Machine :=
  { mem := fun x => if x = a then u32 v else s.mem x,
    trace := s.trace ++ [Event.write a (u32 v)] }

/-- Modelled from the spec: `readl(a)` returns the 32-bit value of the register at
address `a` (kernel accessor, declared outside this file). -/
def readl (a : Nat) (s : Machine) : Nat × Machine :=
  (s.reg a, { s with trace := s.trace ++ [Event.read a (s.reg a)] })

/-- Modelled from the spec: `mdelay(ms)` is a busy wait of `ms` milliseconds. -/
def mdelay (ms : Nat) (s : Machine) : Machine :=
  { s with trace := s.trace ++ [Event.delay ms] }

/-- Modelled from the spec: `spin_lock(&cpu_lock)` acquires the global bring-up lock. -/
def spin_lock (s : Machine) : Machine :=
  { s with trace := s.trace ++ [Event.lock] }

/-- Modelled from the spec: `spin_unlock(&cpu_lock)` releases the global bring-up lock. -/
def spin_unlock (s : Machine) : Machine :=
  { s with trace := s.trace ++ [Event.unlock] }

/-- The file-level globals `cpucfg_membase` and `prcm_membase` (lines 39, 40). -/
structure Globals where
  cpucfg_membase : Nat
  prcm_membase : Nat
  deriving DecidableEq, Repr

/-! ## Discovery (lines 44 to 73 and 129 to 158) -/

/-- The hardware description services used by discovery: `of_find_compatible_node`
maps a compatibility string to a node if there is one, `of_iomap` maps a register
window of a node and returns its base pointer, `0` on failure. -/
structure DeviceTree where
  of_find_compatible_node : String → Option Nat
  of_iomap : Nat → Nat → Nat

/-- The function `sun6i_smp_prepare_cpus`; the result is the globals and the lines
logged with `pr_err`.  The parameter `max_cpus` is not used by the code, and the
reference count dropped by `of_node_put` is not part of the model. -/
def sun6i_smp_prepare_cpus (dt : DeviceTree) (g : Globals) : Globals × List String :=
  match dt.of_find_compatible_node "allwinner,sun6i-a31-prcm" with
  | none => (g, ["Missing A31 PRCM node in the device tree\n"])
  | some node =>
    let g1 : Globals := { g with prcm_membase := dt.of_iomap node 0 }
    if g1.prcm_membase = 0 then
      (g1, ["Couldn't map A31 PRCM registers\n"])
    else
      match dt.of_find_compatible_node "allwinner,sun6i-a31-cpuconfig" with
      | none => (g1, ["Missing A31 CPU config node in the device tree\n"])
      | some node2 =>
        let g2 : Globals := { g1 with cpucfg_membase := dt.of_iomap node2 0 }
        if g2.cpucfg_membase = 0 then
          (g2, ["Couldn't map A31 CPU config registers\n"])
        else
          (g2, [])

/-- The function `sun8i_smp_prepare_cpus`. -/
def sun8i_smp_prepare_cpus (dt : DeviceTree) (g : Globals) : Globals × List String :=
  match dt.of_find_compatible_node "allwinner,sun8i-a23-prcm" with
  | none => (g, ["Missing A23 PRCM node in the device tree\n"])
  | some node =>
    let g1 : Globals := { g with prcm_membase := dt.of_iomap node 0 }
    if g1.prcm_membase = 0 then
      (g1, ["Couldn't map A23 PRCM registers\n"])
    else
      match dt.of_find_compatible_node "allwinner,sun8i-a23-cpuconfig" with
      | none => (g1, ["Missing A23 CPU config node in the device tree\n"])
      | some node2 =>
        let g2 : Globals := { g1 with cpucfg_membase := dt.of_iomap node2 0 }
        if g2.cpucfg_membase = 0 then
          (g2, ["Couldn't map A23 CPU config registers\n"])
        else
          (g2, [])

/-! ## Bring-up (lines 75 to 121, 160 to 192 and 200 to 257) -/

/-- The loop `for (i = 0; i <= 8; i++) writel(0xff >> i, a)` of lines 102, 103. -/
def clamp_ramp (a : Nat) (s : Machine) : Machine :=
  (List.range (8 + 1)).foldl (fun s i => writel (0xff >>> i) a s) s

/-- The function `sun6i_smp_boot_secondary`.  `entry` is `__pa_symbol(secondary_startup)`;
the parameter `idle` is not used by the code. -/
def sun6i_smp_boot_secondary (entry : Nat) (g : Globals) (cpu : Nat) (s : Machine) :
    Int × Machine :=
  if ¬ (g.prcm_membase ≠ 0 ∧ g.cpucfg_membase ≠ 0) then
    (-EFAULT, s)
  else
    let s := spin_lock s
    -- Set CPU boot address
    let s := writel entry (ptr g.cpucfg_membase CPUCFG_PRIVATE0_REG) s
    -- Assert the CPU core in reset
    let s := writel 0 (ptr g.cpucfg_membase (CPUCFG_CPU_RST_CTRL_REG cpu)) s
    -- Assert the L1 cache in reset
    let (reg, s) := readl (ptr g.cpucfg_membase CPUCFG_GEN_CTRL_REG) s
    let s := writel (reg &&& not32 (BIT cpu)) (ptr g.cpucfg_membase CPUCFG_GEN_CTRL_REG) s
    -- Disable external debug access
    let (reg, s) := readl (ptr g.cpucfg_membase CPUCFG_DBG_CTL1_REG) s
    let s := writel (reg &&& not32 (BIT cpu)) (ptr g.cpucfg_membase CPUCFG_DBG_CTL1_REG) s
    -- Power up the CPU
    let s := clamp_ramp (ptr g.prcm_membase (PRCM_CPU_PWR_CLAMP_REG cpu)) s
    let s := mdelay 10 s
    -- Clear CPU power-off gating
    let (reg, s) := readl (ptr g.prcm_membase PRCM_CPU_PWROFF_REG) s
    let s := writel (reg &&& not32 (BIT cpu)) (ptr g.prcm_membase PRCM_CPU_PWROFF_REG) s
    let s := mdelay 1 s
    -- Deassert the CPU core reset
    let s := writel 3 (ptr g.cpucfg_membase (CPUCFG_CPU_RST_CTRL_REG cpu)) s
    -- Enable back the external debug accesses
    let (reg, s) := readl (ptr g.cpucfg_membase CPUCFG_DBG_CTL1_REG) s
    let s := writel (reg ||| BIT cpu) (ptr g.cpucfg_membase CPUCFG_DBG_CTL1_REG) s
    let s := spin_unlock s
    (0, s)

/-- The function `sun8i_smp_boot_secondary`. -/
def sun8i_smp_boot_secondary (entry : Nat) (g : Globals) (cpu : Nat) (s : Machine) :
    Int × Machine :=
  if ¬ (g.prcm_membase ≠ 0 ∧ g.cpucfg_membase ≠ 0) then
    (-EFAULT, s)
  else
    let s := spin_lock s
    -- Set CPU boot address
    let s := writel entry (ptr g.cpucfg_membase CPUCFG_PRIVATE0_REG) s
    -- Assert the CPU core in reset
    let s := writel 0 (ptr g.cpucfg_membase (CPUCFG_CPU_RST_CTRL_REG cpu)) s
    -- Assert the L1 cache in reset
    let (reg, s) := readl (ptr g.cpucfg_membase CPUCFG_GEN_CTRL_REG) s
    let s := writel (reg &&& not32 (BIT cpu)) (ptr g.cpucfg_membase CPUCFG_GEN_CTRL_REG) s
    -- Clear CPU power-off gating
    let (reg, s) := readl (ptr g.prcm_membase PRCM_CPU_PWROFF_REG) s
    let s := writel (reg &&& not32 (BIT cpu)) (ptr g.prcm_membase PRCM_CPU_PWROFF_REG) s
    let s := mdelay 1 s
    -- Deassert the CPU core reset
    let s := writel 3 (ptr g.cpucfg_membase (CPUCFG_CPU_RST_CTRL_REG cpu)) s
    let s := spin_unlock s
    (0, s)

/-- The function `sun8i_t113_smp_boot_secondary`.  `ioremap` is the kernel mapping
service (physical address and size to pointer), called twice on every invocation
(line 205) before the core index is looked at; the `printk` of line 252 touches no
register. -/
def sun8i_t113_smp_boot_secondary (entry : Nat) (ioremap : Nat → Nat → Nat) (cpu : Nat)
    (s : Machine) : Int × Machine :=
  let cpuexec_membase : List Nat := [ioremap 0x070005C4 0x10, ioremap 0x070005C8 0x10]
  if cpu ≠ 1 then
    (0, s)
  else
    let s := spin_lock s
    -- Set CPU boot address
    let s := writel entry (cpuexec_membase.getD cpu 0) s
    -- Assert reset on target CPU
    let (reg, s) := readl (ptr SUN8I_R528_C0_CPUX_CFG SUN8I_R528_C0_RST_CTRL) s
    let s := writel (reg &&& not32 (BIT cpu)) (ptr SUN8I_R528_C0_CPUX_CFG SUN8I_R528_C0_RST_CTRL) s
    -- Invalidate L1 cache
    let (reg, s) := readl (ptr SUN8I_R528_C0_CPUX_CFG SUN8I_R528_C0_CTRL_REG0) s
    let s := writel (reg &&& not32 (BIT cpu)) (ptr SUN8I_R528_C0_CPUX_CFG SUN8I_R528_C0_CTRL_REG0) s
    let s := spin_unlock s
    (0, s)

/-! ## Views of a trace -/

/-- The register writes of a trace, as pairs of address and value, in order. -/
def writesOf : List Event → List (Nat × Nat)
  | [] => []
  | Event.write a v :: t => (a, v) :: writesOf t
  | _ :: t => writesOf t

/-- An event is a register write or a delay. -/
def Event.isWriteOrDelay : Event → Bool
  | Event.write _ _ => true
  | Event.delay _ => true
  | _ => false

/-- An event is a register access or a delay, that is, not a lock operation. -/
def Event.isAccess : Event → Bool
  | Event.lock => false
  | Event.unlock => false
  | _ => true

/-- An event is an acquisition of the bring-up lock. -/
def Event.isLock : Event → Bool
  | Event.lock => true
  | _ => false

/-- An event is a delay. -/
def Event.isDelay : Event → Bool
  | Event.delay _ => true
  | _ => false

/-- The trace of register writes and delays of a trace. -/
def writesAndDelays (t : List Event) : List Event := t.filter Event.isWriteOrDelay

/-- The events of the power-clamp ramp on the register at address `a`: nine writes,
the `i`-th of the value `0xff >> i`. -/
def rampEvents (a : Nat) : List Event :=
  (List.range 9).map (fun i => Event.write a (0xff >>> i))

/-- The protocol of family A as the specification words it (section 4.2), for the values
`gen`, `dbg`, `pw`, `dbg2` returned by its four register reads. -/
def sun6iEvents (entry : Nat) (g : Globals) (cpu gen dbg pw dbg2 : Nat) : List Event :=
  [Event.lock,
   Event.write (ptr g.cpucfg_membase CPUCFG_PRIVATE0_REG) (u32 entry),
   Event.write (ptr g.cpucfg_membase (CPUCFG_CPU_RST_CTRL_REG cpu)) 0,
   Event.read (ptr g.cpucfg_membase CPUCFG_GEN_CTRL_REG) gen,
   Event.write (ptr g.cpucfg_membase CPUCFG_GEN_CTRL_REG) (gen &&& not32 (BIT cpu)),
   Event.read (ptr g.cpucfg_membase CPUCFG_DBG_CTL1_REG) dbg,
   Event.write (ptr g.cpucfg_membase CPUCFG_DBG_CTL1_REG) (dbg &&& not32 (BIT cpu))]
  ++ rampEvents (ptr g.prcm_membase (PRCM_CPU_PWR_CLAMP_REG cpu))
  ++ [Event.delay 10,
   Event.read (ptr g.prcm_membase PRCM_CPU_PWROFF_REG) pw,
   Event.write (ptr g.prcm_membase PRCM_CPU_PWROFF_REG) (pw &&& not32 (BIT cpu)),
   Event.delay 1,
   Event.write (ptr g.cpucfg_membase (CPUCFG_CPU_RST_CTRL_REG cpu)) 3,
   Event.read (ptr g.cpucfg_membase CPUCFG_DBG_CTL1_REG) dbg2,
   Event.write (ptr g.cpucfg_membase CPUCFG_DBG_CTL1_REG) (dbg2 ||| BIT cpu),
   Event.unlock]

/-- The protocol of family B as the specification words it (section 4.3), for the values
`gen`, `pw` returned by its two register reads. -/
def sun8iEvents (entry : Nat) (g : Globals) (cpu gen pw : Nat) : List Event :=
  [Event.lock,
   Event.write (ptr g.cpucfg_membase CPUCFG_PRIVATE0_REG) (u32 entry),
   Event.write (ptr g.cpucfg_membase (CPUCFG_CPU_RST_CTRL_REG cpu)) 0,
   Event.read (ptr g.cpucfg_membase CPUCFG_GEN_CTRL_REG) gen,
   Event.write (ptr g.cpucfg_membase CPUCFG_GEN_CTRL_REG) (gen &&& not32 (BIT cpu)),
   Event.read (ptr g.prcm_membase PRCM_CPU_PWROFF_REG) pw,
   Event.write (ptr g.prcm_membase PRCM_CPU_PWROFF_REG) (pw &&& not32 (BIT cpu)),
   Event.delay 1,
   Event.write (ptr g.cpucfg_membase (CPUCFG_CPU_RST_CTRL_REG cpu)) 3,
   Event.unlock]

/-- The protocol of family C for core 1 as the specification words it (section 4.4), for
the boot-address slot `slot` and the values `rst`, `ctl` returned by its two reads. -/
def t113Events (entry slot rst ctl : Nat) : List Event :=
  [Event.lock,
   Event.write slot (u32 entry),
   Event.read 0x09010000 rst,
   Event.write 0x09010000 (rst &&& not32 (BIT 1)),
   Event.read 0x09010010 ctl,
   Event.write 0x09010010 (ctl &&& not32 (BIT 1)),
   Event.unlock]

/-- The lock automaton run over a trace: `held` says whether the lock is held; the
result is the final state of the lock, or `none` if the trace acquires a held lock,
releases a free lock, or accesses a register or delays while the lock is free. -/
def lockRun : Bool → List Event → Option Bool
  | held, [] => some held
  | held, Event.lock :: t => if held then none else lockRun true t
  | held, Event.unlock :: t => if held then lockRun false t else none
  | held, _ :: t => if held then lockRun true t else none

/-- The events of one call respect the lock: either there is no event at all, or the
first event acquires the lock, the last one releases it, and everything in between is a
register read, a register write or a delay. -/
def Disciplined (ev : List Event) : Prop :=
  ev = [] ∨ ∃ body : List Event,
    ev = Event.lock :: (body ++ [Event.unlock]) ∧ body.all Event.isAccess = true

/-- The word `new` is the word `old` with bit `n` cleared and every other bit unchanged. -/
def BitCleared (old new n : Nat) : Prop :=
  ∀ i, new.testBit i = (decide (i ≠ n) && old.testBit i)

/-- The word `new` is the word `old` with bit `n` set and every other bit unchanged. -/
def BitSet (old new n : Nat) : Prop :=
  ∀ i, new.testBit i = (decide (i = n) || old.testBit i)

/-- The register space after the writes of a list of events, from the register space `m`. -/
def replay (m : Nat → Nat) : List Event → (Nat → Nat)
  | [] => m
  | Event.write a v :: t => replay (fun x => if x = a then v else m x) t
  | _ :: t => replay m t

/-- In a list of events run from the register space `m`, every read returns the 32-bit
value the register holds at that point: the last value written to it, or its value in `m`. -/
def Consistent (m : Nat → Nat) : List Event → Prop
  | [] => True
  | Event.read a v :: t => v = u32 (m a) ∧ Consistent m t
  | Event.write a v :: t => Consistent (fun x => if x = a then v else m x) t
  | _ :: t => Consistent m t

/-- Consistency of a list of events with a register space can be computed. -/
def Consistent.dec : (m : Nat → Nat) → (ev : List Event) → Decidable (Consistent m ev)
  | _, [] => isTrue trivial
  | m, Event.read a v :: t =>
    match Nat.decEq v (u32 (m a)), Consistent.dec m t with
    | isTrue h1, isTrue h2 => isTrue ⟨h1, h2⟩
    | isFalse h1, _ => isFalse (fun h => h1 h.1)
    | _, isFalse h2 => isFalse (fun h => h2 h.2)
  | m, Event.write a v :: t => Consistent.dec (fun x => if x = a then v else m x) t
  | m, Event.lock :: t => Consistent.dec m t
  | m, Event.unlock :: t => Consistent.dec m t
  | m, Event.delay _ :: t => Consistent.dec m t

instance (m : Nat → Nat) (ev : List Event) : Decidable (Consistent m ev) :=
  Consistent.dec m ev

/-- The machine `s` is reached from the register space `m` and the trace `t` by a list of
events whose reads are consistent and whose writes make up the register space of `s`. -/
def Run (m : Nat → Nat) (t : List Event) (s : Machine) : Prop :=
  ∃ ev, s.trace = t ++ ev ∧ Consistent m ev ∧ s.mem = replay m ev

/-- The registers a bring-up of families A and B touches in the per-core configuration
block. -/
def cpucfgRegs (g : Globals) (cpu : Nat) : List Nat :=
  [ptr g.cpucfg_membase CPUCFG_PRIVATE0_REG,
   ptr g.cpucfg_membase (CPUCFG_CPU_RST_CTRL_REG cpu),
   ptr g.cpucfg_membase CPUCFG_GEN_CTRL_REG,
   ptr g.cpucfg_membase CPUCFG_DBG_CTL1_REG]

/-- The registers a bring-up of families A and B touches in the power management block. -/
def prcmRegs (g : Globals) (cpu : Nat) : List Nat :=
  [ptr g.prcm_membase PRCM_CPU_PWROFF_REG,
   ptr g.prcm_membase (PRCM_CPU_PWR_CLAMP_REG cpu)]

/-- The two register blocks are mapped apart: no register touched in one block is at the
address of a register touched in the other. -/
def BlocksSeparate (g : Globals) (cpu : Nat) : Prop :=
  ∀ a ∈ cpucfgRegs g cpu, a ∉ prcmRegs g cpu

instance (g : Globals) (cpu : Nat) : Decidable (BlocksSeparate g cpu) := by
  unfold BlocksSeparate; infer_instance

/-! ## Words and bits -/

theorem u32_lt (x : Nat) : u32 x < 2 ^ 32 := Nat.mod_lt _ (by decide)

theorem u32_of_lt {x : Nat} (h : x < 2 ^ 32) : u32 x = x := Nat.mod_eq_of_lt h

theorem u32_zero : u32 0 = 0 := rfl

theorem u32_three : u32 3 = 3 := rfl

theorem not32_lt (x : Nat) : not32 x < 2 ^ 32 :=
  Nat.xor_lt_two_pow (by decide) (u32_lt x)

theorem land_not32_lt (x y : Nat) : x &&& not32 y < 2 ^ 32 :=
  lt_of_le_of_lt Nat.and_le_right (not32_lt y)

theorem u32_land_not32 (x y : Nat) : u32 (x &&& not32 y) = x &&& not32 y :=
  u32_of_lt (land_not32_lt x y)

theorem BIT_eq {n : Nat} (h : n < 32) : BIT n = 2 ^ n := by
  simp [BIT, h, Nat.one_shiftLeft]

theorem BIT_lt (n : Nat) : BIT n < 2 ^ 32 := by
  unfold BIT
  split
  · rw [Nat.one_shiftLeft]
    exact Nat.pow_lt_pow_right (by decide) (by assumption)
  · decide

theorem u32_lor_BIT {x : Nat} (h : x < 2 ^ 32) (n : Nat) : u32 (x ||| BIT n) = x ||| BIT n :=
  u32_of_lt (Nat.or_lt_two_pow h (BIT_lt n))

/-- The word `x & ~BIT(n)` is `x` with bit `n` cleared and its other 31 bits unchanged. -/
theorem testBit_land_not32_BIT {x n : Nat} (hx : x < 2 ^ 32) (hn : n < 32) (i : Nat) :
    (x &&& not32 (BIT n)).testBit i = (decide (i ≠ n) && x.testBit i) := by
  have hb : u32 (BIT n) = 2 ^ n := by rw [u32_of_lt (BIT_lt n), BIT_eq hn]
  rw [Nat.testBit_and, not32, hb, Nat.testBit_xor, Nat.testBit_two_pow_sub_one,
    Nat.testBit_two_pow]
  by_cases hi : i < 32
  · by_cases h : n = i
    · subst h; simp [hi]
    · have h2 : i ≠ n := fun e => h e.symm
      simp [hi, h, h2]
  · have : x.testBit i = false :=
      Nat.testBit_lt_two_pow (lt_of_lt_of_le hx (Nat.pow_le_pow_right (by decide) (by omega)))
    simp [this]

/-- The word `x | BIT(n)` is `x` with bit `n` set and its other 31 bits unchanged. -/
theorem testBit_lor_BIT {x n : Nat} (hn : n < 32) (i : Nat) :
    (x ||| BIT n).testBit i = (decide (i = n) || x.testBit i) := by
  rw [Nat.testBit_or, BIT_eq hn, Nat.testBit_two_pow, Bool.or_comm]
  by_cases h : n = i
  · subst h; simp
  · have h2 : i ≠ n := fun e => h e.symm
    simp [h, h2]

theorem bitCleared_land {x n : Nat} (hx : x < 2 ^ 32) (hn : n < 32) :
    BitCleared x (x &&& not32 (BIT n)) n :=
  fun i => testBit_land_not32_BIT hx hn i

theorem bitSet_clear_lor {x n : Nat} (hx : x < 2 ^ 32) (hn : n < 32) :
    BitSet x ((x &&& not32 (BIT n)) ||| BIT n) n := by
  intro i
  rw [testBit_lor_BIT hn, testBit_land_not32_BIT hx hn]
  by_cases h : i = n <;> simp [h]

/-! ## Stepping lemmas -/

theorem reg_lt (s : Machine) (a : Nat) : s.reg a < 2 ^ 32 := u32_lt _

theorem writel_trace (v a : Nat) (s : Machine) :
    (writel v a s).trace = s.trace ++ [Event.write a (u32 v)] := rfl

theorem mdelay_trace (ms : Nat) (s : Machine) :
    (mdelay ms s).trace = s.trace ++ [Event.delay ms] := rfl

theorem spin_lock_trace (s : Machine) : (spin_lock s).trace = s.trace ++ [Event.lock] := rfl

theorem spin_unlock_trace (s : Machine) :
    (spin_unlock s).trace = s.trace ++ [Event.unlock] := rfl

theorem clamp_ramp_trace (a : Nat) (s : Machine) :
    (clamp_ramp a s).trace = s.trace ++ rampEvents a := by
  simp [clamp_ramp, rampEvents, List.range, List.range.loop, writel, u32]

/-! ## The event traces of the three bring-up operations -/

theorem sun6i_null (entry : Nat) (g : Globals) (cpu : Nat) (s : Machine)
    (h : g.prcm_membase = 0 ∨ g.cpucfg_membase = 0) :
    sun6i_smp_boot_secondary entry g cpu s = (-EFAULT, s) := by
  unfold sun6i_smp_boot_secondary
  rw [if_pos (by omega)]

theorem sun8i_null (entry : Nat) (g : Globals) (cpu : Nat) (s : Machine)
    (h : g.prcm_membase = 0 ∨ g.cpucfg_membase = 0) :
    sun8i_smp_boot_secondary entry g cpu s = (-EFAULT, s) := by
  unfold sun8i_smp_boot_secondary
  rw [if_pos (by omega)]

theorem sun6i_run (entry : Nat) (g : Globals) (cpu : Nat) (s : Machine)
    (hp : g.prcm_membase ≠ 0) (hc : g.cpucfg_membase ≠ 0) :
    ∃ gen dbg pw dbg2 : Nat,
      ((sun6i_smp_boot_secondary entry g cpu s).1 = 0 ∧
       (sun6i_smp_boot_secondary entry g cpu s).2.trace =
        s.trace ++ sun6iEvents entry g cpu gen dbg pw dbg2) ∧
      gen < 2 ^ 32 ∧ dbg < 2 ^ 32 ∧ pw < 2 ^ 32 ∧ dbg2 < 2 ^ 32 := by
  unfold sun6i_smp_boot_secondary
  rw [if_neg (by simp [hp, hc])]
  simp only [readl, spin_lock_trace, spin_unlock_trace, mdelay_trace, writel_trace,
    clamp_ramp_trace, sun6iEvents, List.append_assoc, List.singleton_append, List.cons_append,
    List.nil_append, true_and, List.append_cancel_left_eq, u32_zero, u32_three,
    u32_land_not32, u32_lor_BIT (reg_lt _ _)]
  exact ⟨_, _, _, _, rfl, reg_lt _ _, reg_lt _ _, reg_lt _ _, reg_lt _ _⟩

theorem sun8i_run (entry : Nat) (g : Globals) (cpu : Nat) (s : Machine)
    (hp : g.prcm_membase ≠ 0) (hc : g.cpucfg_membase ≠ 0) :
    ∃ gen pw : Nat,
      ((sun8i_smp_boot_secondary entry g cpu s).1 = 0 ∧
       (sun8i_smp_boot_secondary entry g cpu s).2.trace =
        s.trace ++ sun8iEvents entry g cpu gen pw) ∧
      gen < 2 ^ 32 ∧ pw < 2 ^ 32 := by
  unfold sun8i_smp_boot_secondary
  rw [if_neg (by simp [hp, hc])]
  simp only [readl, spin_lock_trace, spin_unlock_trace, mdelay_trace, writel_trace,
    sun8iEvents, List.append_assoc, List.singleton_append, List.cons_append,
    List.nil_append, true_and, List.append_cancel_left_eq, u32_zero, u32_three,
    u32_land_not32]
  exact ⟨_, _, rfl, reg_lt _ _, reg_lt _ _⟩

theorem t113_skip (entry : Nat) (ioremap : Nat → Nat → Nat) (cpu : Nat) (s : Machine)
    (h : cpu ≠ 1) : sun8i_t113_smp_boot_secondary entry ioremap cpu s = (0, s) := by
  unfold sun8i_t113_smp_boot_secondary
  simp [h]

theorem t113_run (entry : Nat) (ioremap : Nat → Nat → Nat) (s : Machine) :
    ∃ rst ctl : Nat,
      ((sun8i_t113_smp_boot_secondary entry ioremap 1 s).1 = 0 ∧
       (sun8i_t113_smp_boot_secondary entry ioremap 1 s).2.trace =
        s.trace ++ t113Events entry (ioremap 0x070005C8 0x10) rst ctl) ∧
      rst < 2 ^ 32 ∧ ctl < 2 ^ 32 := by
  unfold sun8i_t113_smp_boot_secondary
  simp only [readl, spin_lock_trace, spin_unlock_trace, writel_trace,
    t113Events, List.append_assoc, List.singleton_append, List.cons_append,
    List.nil_append, true_and, List.append_cancel_left_eq,
    u32_land_not32, ne_eq, not_true_eq_false, if_false, List.getD_cons_succ,
    List.getD_cons_zero]
  exact ⟨_, _, rfl, reg_lt _ _, reg_lt _ _⟩

/-! ## Register space and trace -/

theorem replay_append (m : Nat → Nat) (t u : List Event) :
    replay m (t ++ u) = replay (replay m t) u := by
  induction t generalizing m with
  | nil => rfl
  | cons e t ih => cases e <;> simp [replay, ih]

theorem consistent_append (m : Nat → Nat) (t u : List Event) :
    Consistent m (t ++ u) ↔ Consistent m t ∧ Consistent (replay m t) u := by
  induction t generalizing m with
  | nil => simp [Consistent, replay]
  | cons e t ih => cases e <;> simp [Consistent, replay, ih, and_assoc]

theorem run_refl (s : Machine) : Run s.mem s.trace s :=
  ⟨[], by simp, trivial, rfl⟩

theorem run_step_silent {m : Nat → Nat} {t : List Event} {s : Machine} (e : Event)
    (he : ∀ m' : Nat → Nat, Consistent m' [e]) (hr : ∀ m' : Nat → Nat, replay m' [e] = m')
    (h : Run m t s) : Run m t { mem := s.mem, trace := s.trace ++ [e] } := by
  obtain ⟨ev, ht, hc, hm⟩ := h
  refine ⟨ev ++ [e], by simp [ht], ?_, ?_⟩
  · rw [consistent_append]
    exact ⟨hc, he _⟩
  · rw [replay_append, hr]
    exact hm

theorem run_spin_lock {m : Nat → Nat} {t : List Event} {s : Machine} (h : Run m t s) :
    Run m t (spin_lock s) :=
  run_step_silent Event.lock (fun _ => trivial) (fun _ => rfl) h

theorem run_spin_unlock {m : Nat → Nat} {t : List Event} {s : Machine} (h : Run m t s) :
    Run m t (spin_unlock s) :=
  run_step_silent Event.unlock (fun _ => trivial) (fun _ => rfl) h

theorem run_mdelay {m : Nat → Nat} {t : List Event} {s : Machine} (ms : Nat)
    (h : Run m t s) : Run m t (mdelay ms s) :=
  run_step_silent (Event.delay ms) (fun _ => trivial) (fun _ => rfl) h

theorem run_readl {m : Nat → Nat} {t : List Event} {s : Machine} (a : Nat)
    (h : Run m t s) : Run m t (readl a s).2 := by
  obtain ⟨ev, ht, hc, hm⟩ := h
  refine ⟨ev ++ [Event.read a (s.reg a)], by simp [readl, ht], ?_, ?_⟩
  · rw [consistent_append]
    exact ⟨hc, by simp [Consistent, Machine.reg, hm]⟩
  · rw [replay_append]
    exact hm

theorem run_writel {m : Nat → Nat} {t : List Event} {s : Machine} (v a : Nat)
    (h : Run m t s) : Run m t (writel v a s) := by
  obtain ⟨ev, ht, hc, hm⟩ := h
  refine ⟨ev ++ [Event.write a (u32 v)], by simp [writel, ht], ?_, ?_⟩
  · rw [consistent_append]
    exact ⟨hc, by simp [Consistent]⟩
  · rw [replay_append]
    simp [writel, replay, hm]

theorem run_clamp_ramp {m : Nat → Nat} {t : List Event} {s : Machine} (a : Nat)
    (h : Run m t s) : Run m t (clamp_ramp a s) := by
  have key : ∀ (l : List Nat) (s : Machine), Run m t s →
      Run m t (l.foldl (fun s i => writel (0xff >>> i) a s) s) := by
    intro l
    induction l with
    | nil => exact fun s h => h
    | cons i l ih => exact fun s h => ih _ (run_writel _ _ h)
  exact key _ s h

theorem sun6i_runs (entry : Nat) (g : Globals) (cpu : Nat) (s : Machine) :
    Run s.mem s.trace (sun6i_smp_boot_secondary entry g cpu s).2 := by
  unfold sun6i_smp_boot_secondary
  split
  · exact run_refl s
  · exact run_spin_unlock (run_writel _ _ (run_readl _ (run_writel _ _ (run_mdelay _
      (run_writel _ _ (run_readl _ (run_mdelay _ (run_clamp_ramp _ (run_writel _ _
      (run_readl _ (run_writel _ _ (run_readl _ (run_writel _ _ (run_writel _ _
      (run_spin_lock (run_refl s))))))))))))))))

theorem sun8i_runs (entry : Nat) (g : Globals) (cpu : Nat) (s : Machine) :
    Run s.mem s.trace (sun8i_smp_boot_secondary entry g cpu s).2 := by
  unfold sun8i_smp_boot_secondary
  split
  · exact run_refl s
  · exact run_spin_unlock (run_writel _ _ (run_mdelay _
      (run_writel _ _ (run_readl _ (run_writel _ _
      (run_readl _ (run_writel _ _ (run_writel _ _
      (run_spin_lock (run_refl s))))))))))

theorem t113_runs (entry : Nat) (ioremap : Nat → Nat → Nat) (cpu : Nat) (s : Machine) :
    Run s.mem s.trace (sun8i_t113_smp_boot_secondary entry ioremap cpu s).2 := by
  unfold sun8i_t113_smp_boot_secondary
  split
  · exact run_refl s
  · exact run_spin_unlock (run_writel _ _ (run_readl _ (run_writel _ _
      (run_readl _ (run_writel _ _ (run_spin_lock (run_refl s)))))))

/-- The events of family A, with both handles set, are consistent with the register space
the call starts from, and the register space it ends with is the replay of its writes. -/
theorem sun6i_consistent (entry : Nat) (g : Globals) (cpu : Nat) (s : Machine)
    (hp : g.prcm_membase ≠ 0) (hc : g.cpucfg_membase ≠ 0) :
    ∃ gen dbg pw dbg2 : Nat,
      (sun6i_smp_boot_secondary entry g cpu s).2.trace =
        s.trace ++ sun6iEvents entry g cpu gen dbg pw dbg2 ∧
      Consistent s.mem (sun6iEvents entry g cpu gen dbg pw dbg2) ∧
      (sun6i_smp_boot_secondary entry g cpu s).2.mem =
        replay s.mem (sun6iEvents entry g cpu gen dbg pw dbg2) := by
  obtain ⟨gen, dbg, pw, dbg2, ⟨_, ht⟩, _⟩ := sun6i_run entry g cpu s hp hc
  obtain ⟨ev, hev, hcons, hmem⟩ := sun6i_runs entry g cpu s
  have : ev = sun6iEvents entry g cpu gen dbg pw dbg2 :=
    List.append_cancel_left (hev.symm.trans ht)
  subst this
  exact ⟨gen, dbg, pw, dbg2, ht, hcons, hmem⟩

theorem sun8i_consistent (entry : Nat) (g : Globals) (cpu : Nat) (s : Machine)
    (hp : g.prcm_membase ≠ 0) (hc : g.cpucfg_membase ≠ 0) :
    ∃ gen pw : Nat,
      (sun8i_smp_boot_secondary entry g cpu s).2.trace =
        s.trace ++ sun8iEvents entry g cpu gen pw ∧
      Consistent s.mem (sun8iEvents entry g cpu gen pw) ∧
      (sun8i_smp_boot_secondary entry g cpu s).2.mem =
        replay s.mem (sun8iEvents entry g cpu gen pw) := by
  obtain ⟨gen, pw, ⟨_, ht⟩, _⟩ := sun8i_run entry g cpu s hp hc
  obtain ⟨ev, hev, hcons, hmem⟩ := sun8i_runs entry g cpu s
  have : ev = sun8iEvents entry g cpu gen pw :=
    List.append_cancel_left (hev.symm.trans ht)
  subst this
  exact ⟨gen, pw, ht, hcons, hmem⟩

theorem t113_consistent (entry : Nat) (ioremap : Nat → Nat → Nat) (s : Machine) :
    ∃ rst ctl : Nat,
      (sun8i_t113_smp_boot_secondary entry ioremap 1 s).2.trace =
        s.trace ++ t113Events entry (ioremap 0x070005C8 0x10) rst ctl ∧
      Consistent s.mem (t113Events entry (ioremap 0x070005C8 0x10) rst ctl) ∧
      (sun8i_t113_smp_boot_secondary entry ioremap 1 s).2.mem =
        replay s.mem (t113Events entry (ioremap 0x070005C8 0x10) rst ctl) := by
  obtain ⟨rst, ctl, ⟨_, ht⟩, _⟩ := t113_run entry ioremap s
  obtain ⟨ev, hev, hcons, hmem⟩ := t113_runs entry ioremap 1 s
  have : ev = t113Events entry (ioremap 0x070005C8 0x10) rst ctl :=
    List.append_cancel_left (hev.symm.trans ht)
  subst this
  exact ⟨rst, ctl, ht, hcons, hmem⟩

/-! ## Final register values -/

/-- Registers of one block touched by families A and B are at different addresses, for a
core index below 4. -/
theorem same_block_distinct (g : Globals) (cpu : Nat) (hcpu : cpu < 4) :
    ptr g.cpucfg_membase CPUCFG_PRIVATE0_REG
        ≠ ptr g.cpucfg_membase (CPUCFG_CPU_RST_CTRL_REG cpu) ∧
    ptr g.cpucfg_membase CPUCFG_PRIVATE0_REG ≠ ptr g.cpucfg_membase CPUCFG_GEN_CTRL_REG ∧
    ptr g.cpucfg_membase CPUCFG_PRIVATE0_REG ≠ ptr g.cpucfg_membase CPUCFG_DBG_CTL1_REG ∧
    ptr g.cpucfg_membase (CPUCFG_CPU_RST_CTRL_REG cpu)
        ≠ ptr g.cpucfg_membase CPUCFG_GEN_CTRL_REG ∧
    ptr g.cpucfg_membase (CPUCFG_CPU_RST_CTRL_REG cpu)
        ≠ ptr g.cpucfg_membase CPUCFG_DBG_CTL1_REG ∧
    ptr g.cpucfg_membase CPUCFG_GEN_CTRL_REG ≠ ptr g.cpucfg_membase CPUCFG_DBG_CTL1_REG ∧
    ptr g.prcm_membase PRCM_CPU_PWROFF_REG
        ≠ ptr g.prcm_membase (PRCM_CPU_PWR_CLAMP_REG cpu) := by
  simp only [ptr, u32, CPUCFG_PRIVATE0_REG, CPUCFG_CPU_RST_CTRL_REG, CPUCFG_GEN_CTRL_REG,
    CPUCFG_DBG_CTL1_REG, PRCM_CPU_PWROFF_REG, PRCM_CPU_PWR_CLAMP_REG, ne_eq]
  refine ⟨?_, ?_, ?_, ?_, ?_, ?_, ?_⟩ <;> omega

/-- The final values of the three bit-mask registers of family A, when the two blocks are
mapped apart. -/
theorem sun6i_final_regs (entry : Nat) (g : Globals) (cpu : Nat) (s : Machine)
    (hcpu : cpu < 4) (hp : g.prcm_membase ≠ 0) (hc : g.cpucfg_membase ≠ 0)
    (hsep : BlocksSeparate g cpu) :
    (sun6i_smp_boot_secondary entry g cpu s).2.reg (ptr g.cpucfg_membase CPUCFG_GEN_CTRL_REG)
      = s.reg (ptr g.cpucfg_membase CPUCFG_GEN_CTRL_REG) &&& not32 (BIT cpu) ∧
    (sun6i_smp_boot_secondary entry g cpu s).2.reg (ptr g.prcm_membase PRCM_CPU_PWROFF_REG)
      = s.reg (ptr g.prcm_membase PRCM_CPU_PWROFF_REG) &&& not32 (BIT cpu) ∧
    (sun6i_smp_boot_secondary entry g cpu s).2.reg (ptr g.cpucfg_membase CPUCFG_DBG_CTL1_REG)
      = (s.reg (ptr g.cpucfg_membase CPUCFG_DBG_CTL1_REG) &&& not32 (BIT cpu)) ||| BIT cpu := by
  obtain ⟨a1, a2, a3, b1, b2, c1, e1⟩ := same_block_distinct g cpu hcpu
  simp only [BlocksSeparate, cpucfgRegs, prcmRegs, List.mem_cons, List.mem_singleton,
    List.not_mem_nil, or_false, not_or, forall_eq_or_imp, forall_eq] at hsep
  obtain ⟨⟨a4, a5⟩, ⟨b3, b4⟩, ⟨c2, c3⟩, d1, d2⟩ := hsep
  obtain ⟨gen, dbg, pw, dbg2, _, hcons, hmem⟩ := sun6i_consistent entry g cpu s hp hc
  simp only [sun6iEvents, rampEvents, List.range, List.range.loop, List.map, List.cons_append,
    List.nil_append, Consistent, replay] at hcons hmem
  simp only [Machine.reg, hmem]
  simp only [a1, a2, a3, a4, a5, b1, b2, b3, b4, c1, c2, c3, d1, d2, e1,
    Ne.symm a1, Ne.symm a2, Ne.symm a3, Ne.symm a4, Ne.symm a5, Ne.symm b1, Ne.symm b2,
    Ne.symm b3, Ne.symm b4, Ne.symm c1, Ne.symm c2, Ne.symm c3, Ne.symm d1, Ne.symm d2,
    Ne.symm e1, if_true, if_false, u32_land_not32] at hcons ⊢
  obtain ⟨hgen, hdbg, hpw, hdbg2, _⟩ := hcons
  subst hgen hdbg hpw hdbg2
  exact ⟨rfl, rfl, u32_lor_BIT (land_not32_lt _ _) _⟩

/-- The final values of the two bit-mask registers of family B, when the two blocks are
mapped apart. -/
theorem sun8i_final_regs (entry : Nat) (g : Globals) (cpu : Nat) (s : Machine)
    (hcpu : cpu < 4) (hp : g.prcm_membase ≠ 0) (hc : g.cpucfg_membase ≠ 0)
    (hsep : BlocksSeparate g cpu) :
    (sun8i_smp_boot_secondary entry g cpu s).2.reg (ptr g.cpucfg_membase CPUCFG_GEN_CTRL_REG)
      = s.reg (ptr g.cpucfg_membase CPUCFG_GEN_CTRL_REG) &&& not32 (BIT cpu) ∧
    (sun8i_smp_boot_secondary entry g cpu s).2.reg (ptr g.prcm_membase PRCM_CPU_PWROFF_REG)
      = s.reg (ptr g.prcm_membase PRCM_CPU_PWROFF_REG) &&& not32 (BIT cpu) := by
  obtain ⟨a1, a2, a3, b1, b2, c1, e1⟩ := same_block_distinct g cpu hcpu
  simp only [BlocksSeparate, cpucfgRegs, prcmRegs, List.mem_cons, List.mem_singleton,
    List.not_mem_nil, or_false, not_or, forall_eq_or_imp, forall_eq] at hsep
  obtain ⟨⟨a4, a5⟩, ⟨b3, b4⟩, ⟨c2, c3⟩, d1, d2⟩ := hsep
  obtain ⟨gen, pw, _, hcons, hmem⟩ := sun8i_consistent entry g cpu s hp hc
  simp only [sun8iEvents, List.cons_append, List.nil_append, Consistent, replay]
    at hcons hmem
  simp only [Machine.reg, hmem]
  simp only [a1, a2, a3, a4, a5, b1, b2, b3, b4, c1, c2, c3, d1, d2, e1,
    Ne.symm a1, Ne.symm a2, Ne.symm a3, Ne.symm a4, Ne.symm a5, Ne.symm b1, Ne.symm b2,
    Ne.symm b3, Ne.symm b4, Ne.symm c1, Ne.symm c2, Ne.symm c3, Ne.symm d1, Ne.symm d2,
    Ne.symm e1, if_true, if_false, u32_land_not32] at hcons ⊢
  obtain ⟨hgen, hpw, _⟩ := hcons
  subst hgen hpw
  exact ⟨rfl, rfl⟩

/-- The final values of the two registers of family C for core 1, when the mapped
boot-address slot is neither of them. -/
theorem t113_final_regs (entry : Nat) (ioremap : Nat → Nat → Nat) (s : Machine)
    (h1 : ioremap 0x070005C8 0x10 ≠ 0x09010000) (h2 : ioremap 0x070005C8 0x10 ≠ 0x09010010) :
    (sun8i_t113_smp_boot_secondary entry ioremap 1 s).2.reg 0x09010000
      = s.reg 0x09010000 &&& not32 (BIT 1) ∧
    (sun8i_t113_smp_boot_secondary entry ioremap 1 s).2.reg 0x09010010
      = s.reg 0x09010010 &&& not32 (BIT 1) := by
  obtain ⟨rst, ctl, _, hcons, hmem⟩ := t113_consistent entry ioremap s
  simp only [t113Events, Consistent, replay] at hcons hmem
  simp only [Machine.reg, hmem]
  simp only [Ne.symm h1, Ne.symm h2, if_true, if_false, u32_land_not32,
    (by decide : (0x09010010 : Nat) ≠ 0x09010000),
    (by decide : (0x09010000 : Nat) ≠ 0x09010010)] at hcons ⊢
  obtain ⟨hrst, hctl, _⟩ := hcons
  subst hrst hctl
  exact ⟨rfl, rfl⟩

/-! ## Lock discipline -/

/-- A disciplined trace runs the lock automaton from a free lock to a free lock and
acquires the lock at most once. -/
theorem lockRun_held_access (body : List Event) (h : body.all Event.isAccess = true) :
    lockRun true (body ++ [Event.unlock]) = some false ∧
      ((body ++ [Event.unlock]).filter Event.isLock).length = 0 := by
  induction body with
  | nil => exact ⟨rfl, rfl⟩
  | cons e t ih =>
    simp only [List.all_cons, Bool.and_eq_true] at h
    have := ih h.2
    cases e <;> simp_all [lockRun, Event.isAccess, Event.isLock]

theorem disciplined_lockRun (ev : List Event) (h : Disciplined ev) :
    lockRun false ev = some false ∧ (ev.filter Event.isLock).length ≤ 1 := by
  rcases h with rfl | ⟨body, rfl, hb⟩
  · exact ⟨rfl, by simp⟩
  · have hrun := lockRun_held_access body hb
    refine ⟨by simpa [lockRun] using hrun.1, ?_⟩
    rw [List.filter_cons_of_pos (by rfl), List.length_cons, hrun.2]

/-! ## Claims -/

/-- C1: for families A and B, every core index and every register state, a call with a
null region handle returns the negative error code `-EFAULT` and leaves the machine as it
was (no event is appended: no register write, no acquisition of the lock); a call with
both handles set returns 0; so the call fails exactly when a handle is null. -/
theorem boot_secondary_fails_iff_handle_null (entry : Nat) (g : Globals) (cpu : Nat)
    (s : Machine) :
    ((g.prcm_membase = 0 ∨ g.cpucfg_membase = 0) →
        sun6i_smp_boot_secondary entry g cpu s = (-EFAULT, s) ∧
        sun8i_smp_boot_secondary entry g cpu s = (-EFAULT, s) ∧
        -EFAULT < 0 ∧
        writesOf (sun6i_smp_boot_secondary entry g cpu s).2.trace = writesOf s.trace ∧
        writesOf (sun8i_smp_boot_secondary entry g cpu s).2.trace = writesOf s.trace) ∧
    ((g.prcm_membase ≠ 0 ∧ g.cpucfg_membase ≠ 0) →
        (sun6i_smp_boot_secondary entry g cpu s).1 = 0 ∧
        (sun8i_smp_boot_secondary entry g cpu s).1 = 0) ∧
    ((sun6i_smp_boot_secondary entry g cpu s).1 ≠ 0 ↔
        (g.prcm_membase = 0 ∨ g.cpucfg_membase = 0)) ∧
    ((sun8i_smp_boot_secondary entry g cpu s).1 ≠ 0 ↔
        (g.prcm_membase = 0 ∨ g.cpucfg_membase = 0)) := by
  have hneg : -EFAULT < 0 := by decide
  have h0 : ∀ h : g.prcm_membase ≠ 0 ∧ g.cpucfg_membase ≠ 0,
      (sun6i_smp_boot_secondary entry g cpu s).1 = 0 ∧
      (sun8i_smp_boot_secondary entry g cpu s).1 = 0 := by
    intro h
    obtain ⟨_, _, _, _, ⟨ha, _⟩, _⟩ := sun6i_run entry g cpu s h.1 h.2
    obtain ⟨_, _, ⟨hb, _⟩, _⟩ := sun8i_run entry g cpu s h.1 h.2
    exact ⟨ha, hb⟩
  refine ⟨?_, h0, ?_, ?_⟩
  · intro h
    rw [sun6i_null entry g cpu s h, sun8i_null entry g cpu s h]
    exact ⟨rfl, rfl, hneg, rfl, rfl⟩
  · constructor
    · intro h
      by_contra hn
      exact h (h0 (by omega)).1
    · intro h
      rw [sun6i_null entry g cpu s h]
      exact ne_of_lt hneg
  · constructor
    · intro h
      by_contra hn
      exact h (h0 (by omega)).2
    · intro h
      rw [sun8i_null entry g cpu s h]
      exact ne_of_lt hneg

/-- Witness of C1: with the power management handle null and core 1, both families return
`-14` and append no event. -/
theorem boot_secondary_fails_iff_handle_null_witness :
    sun6i_smp_boot_secondary 0x40008000 ⟨0xf1c00000, 0⟩ 1 ⟨fun _ => 0, []⟩
        = (-14, ⟨fun _ => 0, []⟩) ∧
    sun8i_smp_boot_secondary 0x40008000 ⟨0xf1c00000, 0⟩ 1 ⟨fun _ => 0, []⟩
        = (-14, ⟨fun _ => 0, []⟩) :=
  have h := (boot_secondary_fails_iff_handle_null 0x40008000 ⟨0xf1c00000, 0⟩ 1
    ⟨fun _ => 0, []⟩).1 (Or.inl rfl)
  ⟨h.1, h.2.1⟩

/-- Counterexample to C2: for family A on core 1, with both handles set and all registers
zero, the last register write of the call is the write of 2 to the debug control register
at cpucfg+0x1e4; the write of 3 to the reset control register at cpucfg+0x80 is the one
before it, not the last. -/
theorem sun6i_reset_deassert_not_last :
    (writesOf (sun6i_smp_boot_secondary 0x40008000 ⟨0xf1c01c00, 0xf1c01400⟩ 1
        ⟨fun _ => 0, []⟩).2.trace).getLast? = some (0xf1c01c00 + 0x1e4, 2) ∧
    ptr 0xf1c01c00 (CPUCFG_CPU_RST_CTRL_REG 1) = 0xf1c01c00 + 0x80 ∧
    (writesOf (sun6i_smp_boot_secondary 0x40008000 ⟨0xf1c01c00, 0xf1c01400⟩ 1
        ⟨fun _ => 0, []⟩).2.trace).getLast?
      ≠ some (ptr 0xf1c01c00 (CPUCFG_CPU_RST_CTRL_REG 1), 3) := by
  decide

/-- C2, amended: for every core index and both handles set, in family B the write of 3 to
the reset control register of the core is the last register write of the call; in family A
it is the last but one, followed only by the write that sets the bit of the core in the
debug control register DBG_CTL1; in both families the last write to the reset control
register has the value 3. -/
theorem reset_deassert_position (entry : Nat) (g : Globals) (cpu : Nat) (s : Machine)
    (hp : g.prcm_membase ≠ 0) (hc : g.cpucfg_membase ≠ 0) :
    ∃ evA evB : List Event,
      (sun6i_smp_boot_secondary entry g cpu s).2.trace = s.trace ++ evA ∧
      (sun8i_smp_boot_secondary entry g cpu s).2.trace = s.trace ++ evB ∧
      (writesOf evB).getLast? = some (ptr g.cpucfg_membase (CPUCFG_CPU_RST_CTRL_REG cpu), 3) ∧
      (∃ (pre : List (Nat × Nat)) (dbg2 : Nat), writesOf evA = pre ++
        [(ptr g.cpucfg_membase (CPUCFG_CPU_RST_CTRL_REG cpu), 3),
         (ptr g.cpucfg_membase CPUCFG_DBG_CTL1_REG, dbg2 ||| BIT cpu)]) ∧
      ((writesOf evA).filter
          (fun w => w.1 = ptr g.cpucfg_membase (CPUCFG_CPU_RST_CTRL_REG cpu))).getLast?
        = some (ptr g.cpucfg_membase (CPUCFG_CPU_RST_CTRL_REG cpu), 3) ∧
      ((writesOf evB).filter
          (fun w => w.1 = ptr g.cpucfg_membase (CPUCFG_CPU_RST_CTRL_REG cpu))).getLast?
        = some (ptr g.cpucfg_membase (CPUCFG_CPU_RST_CTRL_REG cpu), 3) := by
  obtain ⟨gen, dbg, pw, dbg2, ⟨_, hA⟩, _⟩ := sun6i_run entry g cpu s hp hc
  obtain ⟨gen', pw', ⟨_, hB⟩, _⟩ := sun8i_run entry g cpu s hp hc
  have hne : ptr g.cpucfg_membase CPUCFG_DBG_CTL1_REG
      ≠ ptr g.cpucfg_membase (CPUCFG_CPU_RST_CTRL_REG cpu) := by
    simp only [ptr, CPUCFG_DBG_CTL1_REG, CPUCFG_CPU_RST_CTRL_REG, u32]
    omega
  refine ⟨_, _, hA, hB, rfl,
    ⟨(writesOf (sun6iEvents entry g cpu gen dbg pw dbg2)).take 14, dbg2, rfl⟩, ?_, ?_⟩
  · have hsplit : writesOf (sun6iEvents entry g cpu gen dbg pw dbg2) =
        (writesOf (sun6iEvents entry g cpu gen dbg pw dbg2)).take 14 ++
          [(ptr g.cpucfg_membase (CPUCFG_CPU_RST_CTRL_REG cpu), 3),
           (ptr g.cpucfg_membase CPUCFG_DBG_CTL1_REG, dbg2 ||| BIT cpu)] := rfl
    rw [hsplit, List.filter_append]
    simp [List.filter, hne, List.getLast?_append]
  · have hsplit : writesOf (sun8iEvents entry g cpu gen' pw') =
        (writesOf (sun8iEvents entry g cpu gen' pw')).take 4 ++
          [(ptr g.cpucfg_membase (CPUCFG_CPU_RST_CTRL_REG cpu), 3)] := rfl
    rw [hsplit, List.filter_append]
    simp [List.filter, List.getLast?_append]

/-- Witness of the amended C2: core 1 with both handles set and all registers zero. -/
theorem reset_deassert_position_witness :
    ∃ evA evB : List Event,
      (sun6i_smp_boot_secondary 0x40008000 ⟨0xf1c01c00, 0xf1c01400⟩ 1 ⟨fun _ => 0, []⟩).2.trace
        = [] ++ evA ∧
      (sun8i_smp_boot_secondary 0x40008000 ⟨0xf1c01c00, 0xf1c01400⟩ 1 ⟨fun _ => 0, []⟩).2.trace
        = [] ++ evB ∧
      (writesOf evB).getLast? = some (0xf1c01c80, 3) :=
  have ⟨evA, evB, h1, h2, h3, _⟩ :=
    reset_deassert_position 0x40008000 ⟨0xf1c01c00, 0xf1c01400⟩ 1 ⟨fun _ => 0, []⟩
      (by decide) (by decide)
  ⟨evA, evB, h1, h2, h3⟩

/-- Counterexample to C5: a hardware description with the CPU configuration node and
without the PRCM node, every mapping succeeding.  Discovery of family A, and of family B,
started with both handles null leaves both handles null: the handle of the node that is
present is not set. -/
theorem prepare_cpus_missing_prcm_leaves_both_null :
    (sun6i_smp_prepare_cpus
      ⟨fun c => if c = "allwinner,sun6i-a31-cpuconfig" then some 1 else none,
       fun _ _ => 0xf1c01c00⟩ ⟨0, 0⟩).1 = ⟨0, 0⟩ ∧
    (sun8i_smp_prepare_cpus
      ⟨fun c => if c = "allwinner,sun8i-a23-cpuconfig" then some 1 else none,
       fun _ _ => 0xf1c01c00⟩ ⟨0, 0⟩).1 = ⟨0, 0⟩ := by
  constructor <;> simp [sun6i_smp_prepare_cpus, sun8i_smp_prepare_cpus]

/-- C5, amended: discovery of family A and of family B, started with both handles null and
with every mapping of a found node succeeding.  If both nodes are present, both handles are
non-null afterwards.  If only the CPU configuration node is missing, the CPU configuration
handle is null and the PRCM handle is non-null.  If the PRCM node is missing, both handles
are null afterwards, whether or not the CPU configuration node is present. -/
theorem prepare_cpus_handles (dt : DeviceTree) (hmap : ∀ node, dt.of_iomap node 0 ≠ 0) :
    ((dt.of_find_compatible_node "allwinner,sun6i-a31-prcm" ≠ none →
      dt.of_find_compatible_node "allwinner,sun6i-a31-cpuconfig" ≠ none →
        (sun6i_smp_prepare_cpus dt ⟨0, 0⟩).1.prcm_membase ≠ 0 ∧
        (sun6i_smp_prepare_cpus dt ⟨0, 0⟩).1.cpucfg_membase ≠ 0) ∧
     (dt.of_find_compatible_node "allwinner,sun6i-a31-prcm" ≠ none →
      dt.of_find_compatible_node "allwinner,sun6i-a31-cpuconfig" = none →
        (sun6i_smp_prepare_cpus dt ⟨0, 0⟩).1.prcm_membase ≠ 0 ∧
        (sun6i_smp_prepare_cpus dt ⟨0, 0⟩).1.cpucfg_membase = 0) ∧
     (dt.of_find_compatible_node "allwinner,sun6i-a31-prcm" = none →
        (sun6i_smp_prepare_cpus dt ⟨0, 0⟩).1.prcm_membase = 0 ∧
        (sun6i_smp_prepare_cpus dt ⟨0, 0⟩).1.cpucfg_membase = 0)) ∧
    ((dt.of_find_compatible_node "allwinner,sun8i-a23-prcm" ≠ none →
      dt.of_find_compatible_node "allwinner,sun8i-a23-cpuconfig" ≠ none →
        (sun8i_smp_prepare_cpus dt ⟨0, 0⟩).1.prcm_membase ≠ 0 ∧
        (sun8i_smp_prepare_cpus dt ⟨0, 0⟩).1.cpucfg_membase ≠ 0) ∧
     (dt.of_find_compatible_node "allwinner,sun8i-a23-prcm" ≠ none →
      dt.of_find_compatible_node "allwinner,sun8i-a23-cpuconfig" = none →
        (sun8i_smp_prepare_cpus dt ⟨0, 0⟩).1.prcm_membase ≠ 0 ∧
        (sun8i_smp_prepare_cpus dt ⟨0, 0⟩).1.cpucfg_membase = 0) ∧
     (dt.of_find_compatible_node "allwinner,sun8i-a23-prcm" = none →
        (sun8i_smp_prepare_cpus dt ⟨0, 0⟩).1.prcm_membase = 0 ∧
        (sun8i_smp_prepare_cpus dt ⟨0, 0⟩).1.cpucfg_membase = 0)) := by
  refine ⟨⟨?_, ?_, ?_⟩, ?_, ?_, ?_⟩
  · intro h1 h2
    obtain ⟨n1, e1⟩ := Option.ne_none_iff_exists'.mp h1
    obtain ⟨n2, e2⟩ := Option.ne_none_iff_exists'.mp h2
    simp [sun6i_smp_prepare_cpus, e1, e2, hmap]
  · intro h1 e2
    obtain ⟨n1, e1⟩ := Option.ne_none_iff_exists'.mp h1
    simp [sun6i_smp_prepare_cpus, e1, e2, hmap]
  · intro e1
    simp [sun6i_smp_prepare_cpus, e1]
  · intro h1 h2
    obtain ⟨n1, e1⟩ := Option.ne_none_iff_exists'.mp h1
    obtain ⟨n2, e2⟩ := Option.ne_none_iff_exists'.mp h2
    simp [sun8i_smp_prepare_cpus, e1, e2, hmap]
  · intro h1 e2
    obtain ⟨n1, e1⟩ := Option.ne_none_iff_exists'.mp h1
    simp [sun8i_smp_prepare_cpus, e1, e2, hmap]
  · intro e1
    simp [sun8i_smp_prepare_cpus, e1]

/-- Witness of the amended C5: a hardware description of family A with the PRCM node only,
every mapping succeeding; afterwards the PRCM handle is set and the other one is null. -/
theorem prepare_cpus_handles_witness :
    (sun6i_smp_prepare_cpus
      ⟨fun c => if c = "allwinner,sun6i-a31-prcm" then some 1 else none,
       fun _ _ => 0xf1c01400⟩ ⟨0, 0⟩).1.prcm_membase ≠ 0 ∧
    (sun6i_smp_prepare_cpus
      ⟨fun c => if c = "allwinner,sun6i-a31-prcm" then some 1 else none,
       fun _ _ => 0xf1c01400⟩ ⟨0, 0⟩).1.cpucfg_membase = 0 :=
  (prepare_cpus_handles
    ⟨fun c => if c = "allwinner,sun6i-a31-prcm" then some 1 else none, fun _ _ => 0xf1c01400⟩
    (fun _ => by simp)).1.2.1 (by simp) (by simp)

/-- Counterexample to C6: the core indices 0 and 2^26 are different values of the 32-bit
`cpu` parameter, and in 32-bit arithmetic they have the same reset control offset 0x40. -/
theorem rst_ctrl_offset_not_injective :
    (0 : Nat) ≠ 2 ^ 26 ∧ 2 ^ 26 < 2 ^ 32 ∧
    CPUCFG_CPU_RST_CTRL_REG 0 = 0x40 ∧ CPUCFG_CPU_RST_CTRL_REG (2 ^ 26) = 0x40 ∧
    ¬ (∀ c1 c2 : Nat, c1 < 2 ^ 32 → c2 < 2 ^ 32 → c1 ≠ c2 →
        CPUCFG_CPU_RST_CTRL_REG c1 ≠ CPUCFG_CPU_RST_CTRL_REG c2) := by
  refine ⟨by decide, by decide, by decide, by decide, ?_⟩
  intro h
  exact h 0 (2 ^ 26) (by decide) (by decide) (by decide) (by decide)

/-- C6, amended: in the 32-bit arithmetic of the code, two core indices have the same
offset in one of the four per-core formulas of the configuration block exactly when they
are equal modulo 2^26, and the same power clamp offset exactly when they are equal modulo
2^30; so each formula is injective on core indices below 2^26.  Offsets of two different
per-core fields of the configuration block never coincide, for any two core indices. -/
theorem per_core_offsets_distinct (c1 c2 : Nat) :
    (CPUCFG_CPU_RST_CTRL_REG c1 = CPUCFG_CPU_RST_CTRL_REG c2 ↔ c1 % 2 ^ 26 = c2 % 2 ^ 26) ∧
    (CPUCFG_CPU_CTRL_REG c1 = CPUCFG_CPU_CTRL_REG c2 ↔ c1 % 2 ^ 26 = c2 % 2 ^ 26) ∧
    (CPUCFG_CPU_STATUS_REG c1 = CPUCFG_CPU_STATUS_REG c2 ↔ c1 % 2 ^ 26 = c2 % 2 ^ 26) ∧
    (CPUCFG_CPU_PWR_CLAMP_STATUS_REG c1 = CPUCFG_CPU_PWR_CLAMP_STATUS_REG c2 ↔
      c1 % 2 ^ 26 = c2 % 2 ^ 26) ∧
    (PRCM_CPU_PWR_CLAMP_REG c1 = PRCM_CPU_PWR_CLAMP_REG c2 ↔ c1 % 2 ^ 30 = c2 % 2 ^ 30) ∧
    (c1 < 2 ^ 26 → c2 < 2 ^ 26 → c1 ≠ c2 →
      CPUCFG_CPU_RST_CTRL_REG c1 ≠ CPUCFG_CPU_RST_CTRL_REG c2 ∧
      CPUCFG_CPU_CTRL_REG c1 ≠ CPUCFG_CPU_CTRL_REG c2 ∧
      CPUCFG_CPU_STATUS_REG c1 ≠ CPUCFG_CPU_STATUS_REG c2 ∧
      CPUCFG_CPU_PWR_CLAMP_STATUS_REG c1 ≠ CPUCFG_CPU_PWR_CLAMP_STATUS_REG c2 ∧
      PRCM_CPU_PWR_CLAMP_REG c1 ≠ PRCM_CPU_PWR_CLAMP_REG c2) ∧
    CPUCFG_CPU_RST_CTRL_REG c1 ≠ CPUCFG_CPU_CTRL_REG c2 ∧
    CPUCFG_CPU_RST_CTRL_REG c1 ≠ CPUCFG_CPU_STATUS_REG c2 ∧
    CPUCFG_CPU_RST_CTRL_REG c1 ≠ CPUCFG_CPU_PWR_CLAMP_STATUS_REG c2 ∧
    CPUCFG_CPU_CTRL_REG c1 ≠ CPUCFG_CPU_STATUS_REG c2 ∧
    CPUCFG_CPU_CTRL_REG c1 ≠ CPUCFG_CPU_PWR_CLAMP_STATUS_REG c2 ∧
    CPUCFG_CPU_STATUS_REG c1 ≠ CPUCFG_CPU_PWR_CLAMP_STATUS_REG c2 := by
  simp only [CPUCFG_CPU_RST_CTRL_REG, CPUCFG_CPU_CTRL_REG, CPUCFG_CPU_STATUS_REG,
    CPUCFG_CPU_PWR_CLAMP_STATUS_REG, PRCM_CPU_PWR_CLAMP_REG, u32, ne_eq]
  norm_num
  refine ⟨?_, ?_, ?_, ?_, ?_, ?_, ?_, ?_, ?_, ?_, ?_, ?_⟩ <;> omega

/-- Witness of the amended C6: cores 0 and 3. -/
theorem per_core_offsets_distinct_witness :
    CPUCFG_CPU_RST_CTRL_REG 0 ≠ CPUCFG_CPU_RST_CTRL_REG 3 ∧
    CPUCFG_CPU_CTRL_REG 0 ≠ CPUCFG_CPU_CTRL_REG 3 ∧
    CPUCFG_CPU_STATUS_REG 0 ≠ CPUCFG_CPU_STATUS_REG 3 ∧
    CPUCFG_CPU_PWR_CLAMP_STATUS_REG 0 ≠ CPUCFG_CPU_PWR_CLAMP_STATUS_REG 3 ∧
    PRCM_CPU_PWR_CLAMP_REG 0 ≠ PRCM_CPU_PWR_CLAMP_REG 3 :=
  (per_core_offsets_distinct 0 3).2.2.2.2.2.1 (by decide) (by decide) (by decide)

/-- C7: for family A, every core index below 32 and both handles set, the events of the
call are the protocol `sun6iEvents` for the four values read, and its trace of register
writes and delays is, in this order: the entry address to cpucfg+0x1a4, 0 to the reset
control register of the core, GEN_CTRL as read with bit `cpu` cleared to cpucfg+0x184,
DBG_CTL1 as read with bit `cpu` cleared to cpucfg+0x1e4, the nine clamp writes, a 10 ms
delay, PWROFF as read with bit `cpu` cleared to prcm+0x100, a 1 ms delay, 3 to the reset
control register, DBG_CTL1 as read with bit `cpu` set to cpucfg+0x1e4.  Every value read
is the value the register holds at that point of the call. -/
theorem sun6i_boot_secondary_protocol (entry : Nat) (g : Globals) (cpu : Nat) (s : Machine)
    (hcpu : cpu < 32) (hp : g.prcm_membase ≠ 0) (hc : g.cpucfg_membase ≠ 0) :
    ∃ gen dbg pw dbg2 : Nat,
      (sun6i_smp_boot_secondary entry g cpu s).2.trace =
        s.trace ++ sun6iEvents entry g cpu gen dbg pw dbg2 ∧
      writesAndDelays (sun6iEvents entry g cpu gen dbg pw dbg2) =
        [Event.write (ptr g.cpucfg_membase 0x1a4) (u32 entry),
         Event.write (ptr g.cpucfg_membase (CPUCFG_CPU_RST_CTRL_REG cpu)) 0,
         Event.write (ptr g.cpucfg_membase 0x184) (gen &&& not32 (BIT cpu)),
         Event.write (ptr g.cpucfg_membase 0x1e4) (dbg &&& not32 (BIT cpu)),
         Event.write (ptr g.prcm_membase (PRCM_CPU_PWR_CLAMP_REG cpu)) 0xff,
         Event.write (ptr g.prcm_membase (PRCM_CPU_PWR_CLAMP_REG cpu)) 0x7f,
         Event.write (ptr g.prcm_membase (PRCM_CPU_PWR_CLAMP_REG cpu)) 0x3f,
         Event.write (ptr g.prcm_membase (PRCM_CPU_PWR_CLAMP_REG cpu)) 0x1f,
         Event.write (ptr g.prcm_membase (PRCM_CPU_PWR_CLAMP_REG cpu)) 0x0f,
         Event.write (ptr g.prcm_membase (PRCM_CPU_PWR_CLAMP_REG cpu)) 0x07,
         Event.write (ptr g.prcm_membase (PRCM_CPU_PWR_CLAMP_REG cpu)) 0x03,
         Event.write (ptr g.prcm_membase (PRCM_CPU_PWR_CLAMP_REG cpu)) 0x01,
         Event.write (ptr g.prcm_membase (PRCM_CPU_PWR_CLAMP_REG cpu)) 0x00,
         Event.delay 10,
         Event.write (ptr g.prcm_membase 0x100) (pw &&& not32 (BIT cpu)),
         Event.delay 1,
         Event.write (ptr g.cpucfg_membase (CPUCFG_CPU_RST_CTRL_REG cpu)) 3,
         Event.write (ptr g.cpucfg_membase 0x1e4) (dbg2 ||| BIT cpu)] ∧
      (∀ i, (gen &&& not32 (BIT cpu)).testBit i = (decide (i ≠ cpu) && gen.testBit i)) ∧
      (∀ i, (dbg &&& not32 (BIT cpu)).testBit i = (decide (i ≠ cpu) && dbg.testBit i)) ∧
      (∀ i, (pw &&& not32 (BIT cpu)).testBit i = (decide (i ≠ cpu) && pw.testBit i)) ∧
      (∀ i, (dbg2 ||| BIT cpu).testBit i = (decide (i = cpu) || dbg2.testBit i)) ∧
      Consistent s.mem (sun6iEvents entry g cpu gen dbg pw dbg2) := by
  obtain ⟨gen, dbg, pw, dbg2, ht, hcons, _⟩ := sun6i_consistent entry g cpu s hp hc
  obtain ⟨gen', dbg', pw', dbg2', ⟨_, ht'⟩, hg, hd, hw, _⟩ := sun6i_run entry g cpu s hp hc
  have he : sun6iEvents entry g cpu gen dbg pw dbg2 =
      sun6iEvents entry g cpu gen' dbg' pw' dbg2' :=
    List.append_cancel_left (ht.symm.trans ht')
  rw [he] at ht hcons
  exact ⟨gen', dbg', pw', dbg2', ht, rfl, testBit_land_not32_BIT hg hcpu,
    testBit_land_not32_BIT hd hcpu, testBit_land_not32_BIT hw hcpu, testBit_lor_BIT hcpu,
    hcons⟩

/-- Witness of C7: core 1 with both handles set and all registers zero. -/
theorem sun6i_boot_secondary_protocol_witness :
    ∃ gen dbg pw dbg2 : Nat,
      (sun6i_smp_boot_secondary 0x40008000 ⟨0xf1c01c00, 0xf1c01400⟩ 1 ⟨fun _ => 0, []⟩).2.trace =
        [] ++ sun6iEvents 0x40008000 ⟨0xf1c01c00, 0xf1c01400⟩ 1 gen dbg pw dbg2 :=
  have ⟨gen, dbg, pw, dbg2, h, _⟩ :=
    sun6i_boot_secondary_protocol 0x40008000 ⟨0xf1c01c00, 0xf1c01400⟩ 1 ⟨fun _ => 0, []⟩
      (by decide) (by decide) (by decide)
  ⟨gen, dbg, pw, dbg2, h⟩

/-- C8: for family B, every core index below 4, every initial register state and both
handles set, the trace of register writes and delays of the call is exactly: the entry
address to cpucfg+0x1a4, 0 to the reset control register of the core, GEN_CTRL as read with
bit `cpu` cleared, PWROFF as read with bit `cpu` cleared, a 1 ms delay, 3 to the reset
control register.  The trace of family A on the same inputs is this trace with, inserted
after the GEN_CTRL write, a DBG_CTL1 write, the nine power clamp writes and a 10 ms delay,
and, appended at the end, a second DBG_CTL1 write: deleting these (the steps 4 to 14 and
the last step) from the trace of family A gives the trace of family B. -/
theorem sun8i_boot_secondary_protocol (entry : Nat) (g : Globals) (cpu : Nat) (s : Machine)
    (hcpu : cpu < 4) (hp : g.prcm_membase ≠ 0) (hc : g.cpucfg_membase ≠ 0) :
    ∃ (gen pw dbg dbg2 : Nat) (evA : List Event),
      (sun8i_smp_boot_secondary entry g cpu s).2.trace =
        s.trace ++ sun8iEvents entry g cpu gen pw ∧
      Consistent s.mem (sun8iEvents entry g cpu gen pw) ∧
      writesAndDelays (sun8iEvents entry g cpu gen pw) =
        [Event.write (ptr g.cpucfg_membase 0x1a4) (u32 entry),
         Event.write (ptr g.cpucfg_membase (CPUCFG_CPU_RST_CTRL_REG cpu)) 0,
         Event.write (ptr g.cpucfg_membase 0x184) (gen &&& not32 (BIT cpu)),
         Event.write (ptr g.prcm_membase 0x100) (pw &&& not32 (BIT cpu)),
         Event.delay 1,
         Event.write (ptr g.cpucfg_membase (CPUCFG_CPU_RST_CTRL_REG cpu)) 3] ∧
      BitCleared gen (gen &&& not32 (BIT cpu)) cpu ∧
      BitCleared pw (pw &&& not32 (BIT cpu)) cpu ∧
      (sun6i_smp_boot_secondary entry g cpu s).2.trace = s.trace ++ evA ∧
      writesAndDelays evA =
        [Event.write (ptr g.cpucfg_membase 0x1a4) (u32 entry),
         Event.write (ptr g.cpucfg_membase (CPUCFG_CPU_RST_CTRL_REG cpu)) 0,
         Event.write (ptr g.cpucfg_membase 0x184) (gen &&& not32 (BIT cpu))]
        ++ Event.write (ptr g.cpucfg_membase 0x1e4) (dbg &&& not32 (BIT cpu))
          :: rampEvents (ptr g.prcm_membase (PRCM_CPU_PWR_CLAMP_REG cpu))
        ++ Event.delay 10 ::
        [Event.write (ptr g.prcm_membase 0x100) (pw &&& not32 (BIT cpu)),
         Event.delay 1,
         Event.write (ptr g.cpucfg_membase (CPUCFG_CPU_RST_CTRL_REG cpu)) 3]
        ++ [Event.write (ptr g.cpucfg_membase 0x1e4) (dbg2 ||| BIT cpu)] ∧
      writesAndDelays (sun8iEvents entry g cpu gen pw) =
        (writesAndDelays evA).take 3 ++ ((writesAndDelays evA).drop 14).take 3 := by
  obtain ⟨a1, a2, a3, b1, b2, c1, e1⟩ := same_block_distinct g cpu hcpu
  obtain ⟨gen, pw, htB, hconsB, _⟩ := sun8i_consistent entry g cpu s hp hc
  obtain ⟨genA, dbg, pwA, dbg2, htA, hconsA, _⟩ := sun6i_consistent entry g cpu s hp hc
  have hcB := hconsB
  simp only [sun8iEvents, Consistent, replay] at hcB
  simp only [sun6iEvents, rampEvents, List.range, List.range.loop, List.map, List.cons_append,
    List.nil_append, Consistent, replay] at hconsA
  simp only [a1, a2, a3, b1, b2, c1, e1, Ne.symm a1, Ne.symm a2, Ne.symm a3, Ne.symm b1,
    Ne.symm b2, Ne.symm c1, Ne.symm e1, if_true, if_false] at hcB hconsA
  obtain ⟨hgenB, hpwB, _⟩ := hcB
  obtain ⟨hgenA, hdbg, hpwA, _⟩ := hconsA
  have hgen : gen = genA := hgenB.trans hgenA.symm
  subst hgen
  have hpw : pwA &&& not32 (BIT cpu) = pw &&& not32 (BIT cpu) := by
    by_cases h : ptr g.prcm_membase PRCM_CPU_PWROFF_REG = ptr g.cpucfg_membase CPUCFG_DBG_CTL1_REG
    · rw [h] at hpwA hpwB
      simp only [Ne.symm c1, Ne.symm b2, Ne.symm a3, if_true, if_false, u32_land_not32]
        at hpwA hpwB
      rw [hpwA, hdbg, hpwB, Nat.land_assoc, Nat.and_self]
    · simp only [h, if_false] at hpwA
      rw [hpwA, hpwB]
  have hlt : gen < 2 ^ 32 := hgenB ▸ u32_lt _
  have hplt : pw < 2 ^ 32 := hpwB ▸ u32_lt _
  have hn : cpu < 32 := by omega
  have hA : writesAndDelays (sun6iEvents entry g cpu gen dbg pwA dbg2) =
      [Event.write (ptr g.cpucfg_membase 0x1a4) (u32 entry),
       Event.write (ptr g.cpucfg_membase (CPUCFG_CPU_RST_CTRL_REG cpu)) 0,
       Event.write (ptr g.cpucfg_membase 0x184) (gen &&& not32 (BIT cpu))]
      ++ Event.write (ptr g.cpucfg_membase 0x1e4) (dbg &&& not32 (BIT cpu))
        :: rampEvents (ptr g.prcm_membase (PRCM_CPU_PWR_CLAMP_REG cpu))
      ++ Event.delay 10 ::
      [Event.write (ptr g.prcm_membase 0x100) (pw &&& not32 (BIT cpu)),
       Event.delay 1,
       Event.write (ptr g.cpucfg_membase (CPUCFG_CPU_RST_CTRL_REG cpu)) 3]
      ++ [Event.write (ptr g.cpucfg_membase 0x1e4) (dbg2 ||| BIT cpu)] := by
    rw [← hpw]
    rfl
  refine ⟨gen, pw, dbg, dbg2, _, htB, hconsB, rfl, bitCleared_land hlt hn,
    bitCleared_land hplt hn, htA, hA, ?_⟩
  rw [hA]
  rfl

/-- Witness of C8: core 1 with both handles set and all registers zero. -/
theorem sun8i_boot_secondary_protocol_witness :
    ∃ gen pw : Nat,
      (sun8i_smp_boot_secondary 0x40008000 ⟨0xf1c01c00, 0xf1c01400⟩ 1 ⟨fun _ => 0, []⟩).2.trace =
        [] ++ sun8iEvents 0x40008000 ⟨0xf1c01c00, 0xf1c01400⟩ 1 gen pw :=
  have ⟨gen, pw, _, _, _, h, _⟩ :=
    sun8i_boot_secondary_protocol 0x40008000 ⟨0xf1c01c00, 0xf1c01400⟩ 1 ⟨fun _ => 0, []⟩
      (by decide) (by decide) (by decide)
  ⟨gen, pw, h⟩

/-- C9: for each of the three bring-up operations and every input, the events of the call
are disciplined: either there is none, or the first acquires the lock, the last releases
it, and every register read, register write and delay lies in between; so the lock is
acquired at most once and is free on return.  On the early return paths (a null handle for
families A and B, a core index other than 1 for family C) there is no event. -/
theorem boot_secondary_lock_discipline (entry : Nat) (g : Globals)
    (ioremap : Nat → Nat → Nat) (cpu : Nat) (s : Machine) :
    (∃ ev, (sun6i_smp_boot_secondary entry g cpu s).2.trace = s.trace ++ ev ∧
      Disciplined ev ∧ lockRun false ev = some false ∧
      (ev.filter Event.isLock).length ≤ 1 ∧
      ((g.prcm_membase = 0 ∨ g.cpucfg_membase = 0) → ev = [])) ∧
    (∃ ev, (sun8i_smp_boot_secondary entry g cpu s).2.trace = s.trace ++ ev ∧
      Disciplined ev ∧ lockRun false ev = some false ∧
      (ev.filter Event.isLock).length ≤ 1 ∧
      ((g.prcm_membase = 0 ∨ g.cpucfg_membase = 0) → ev = [])) ∧
    (∃ ev, (sun8i_t113_smp_boot_secondary entry ioremap cpu s).2.trace = s.trace ++ ev ∧
      Disciplined ev ∧ lockRun false ev = some false ∧
      (ev.filter Event.isLock).length ≤ 1 ∧
      (cpu ≠ 1 → ev = [])) := by
  have key : ∀ ev : List Event, Disciplined ev →
      Disciplined ev ∧ lockRun false ev = some false ∧ (ev.filter Event.isLock).length ≤ 1 :=
    fun ev h => ⟨h, disciplined_lockRun ev h⟩
  refine ⟨?_, ?_, ?_⟩
  · by_cases h : g.prcm_membase = 0 ∨ g.cpucfg_membase = 0
    · refine ⟨[], ?_, (key [] (Or.inl rfl)).1, (key [] (Or.inl rfl)).2.1,
        (key [] (Or.inl rfl)).2.2, fun _ => rfl⟩
      rw [sun6i_null entry g cpu s h]; simp
    · obtain ⟨gen, dbg, pw, dbg2, ⟨_, ht⟩, _⟩ :=
        sun6i_run entry g cpu s (by omega) (by omega)
      have hd : Disciplined (sun6iEvents entry g cpu gen dbg pw dbg2) :=
        Or.inr ⟨(sun6iEvents entry g cpu gen dbg pw dbg2).tail.dropLast, rfl, rfl⟩
      exact ⟨_, ht, (key _ hd).1, (key _ hd).2.1, (key _ hd).2.2, fun h' => absurd h' h⟩
  · by_cases h : g.prcm_membase = 0 ∨ g.cpucfg_membase = 0
    · refine ⟨[], ?_, (key [] (Or.inl rfl)).1, (key [] (Or.inl rfl)).2.1,
        (key [] (Or.inl rfl)).2.2, fun _ => rfl⟩
      rw [sun8i_null entry g cpu s h]; simp
    · obtain ⟨gen, pw, ⟨_, ht⟩, _⟩ := sun8i_run entry g cpu s (by omega) (by omega)
      have hd : Disciplined (sun8iEvents entry g cpu gen pw) :=
        Or.inr ⟨(sun8iEvents entry g cpu gen pw).tail.dropLast, rfl, rfl⟩
      exact ⟨_, ht, (key _ hd).1, (key _ hd).2.1, (key _ hd).2.2, fun h' => absurd h' h⟩
  · by_cases h : cpu = 1
    · subst h
      obtain ⟨rst, ctl, ⟨_, ht⟩, _⟩ := t113_run entry ioremap s
      have hd : Disciplined (t113Events entry (ioremap 0x070005C8 0x10) rst ctl) :=
        Or.inr ⟨(t113Events entry (ioremap 0x070005C8 0x10) rst ctl).tail.dropLast, rfl, rfl⟩
      exact ⟨_, ht, (key _ hd).1, (key _ hd).2.1, (key _ hd).2.2, fun h' => absurd rfl h'⟩
    · refine ⟨[], ?_, (key [] (Or.inl rfl)).1, (key [] (Or.inl rfl)).2.1,
        (key [] (Or.inl rfl)).2.2, fun _ => rfl⟩
      rw [t113_skip entry ioremap cpu s h]; simp

end Sunxi
